import Mathlib

/-!
Verification development for the SMS simulator (`sms_simulator.py`).

The program is shallowly embedded: each Python class method used by the
claims is translated into an executable Lean definition over explicit
state.  Python floats are modelled as exact rationals (`ℚ`); the random
samples drawn by `random.random()` and the wall-clock elapsed times
measured with `time.perf_counter()` are passed in as explicit input
streams; Python's fallible operations (float division by zero, the
`ValueError` raised by `np.array_split`) are modelled with `Except`.
-/

/-- A message, as built by `Message.__init__`: the payload and the
recipient phone number.  Random generation of the two strings is outside
the embedded core; any concrete strings stand for a generated message. -/
structure Message where
  message : String
  recipient : String
deriving DecidableEq

/-- The mutable state of a `Sender` object: the derived gamma parameters,
the configured failure rate, the owned message list `self.__messages`,
the four counters, and the `is_sending` liveness flag. -/
structure SenderState where
  shape : ℚ
  scale : ℚ
  failure_rate : ℚ
  messages : List Message
  num_messages_sent : ℕ
  num_messages_failed : ℕ
  elapsed_time : ℚ
  elapsed_time_denominator : ℕ
  is_sending : Bool
deriving DecidableEq

/-- Python float division: `a / b` raises `ZeroDivisionError` when `b` is
zero and otherwise yields the quotient. -/
def pyDiv (a b : ℚ) : Except String ℚ :=
  if b = 0 then Except.error "ZeroDivisionError: float division by zero"
  else Except.ok (a / b)

/-- `Sender.__init__`: computes `shape = mean_delay ** 2 / std_deviation`
and `scale = std_deviation / mean_delay` with `std_deviation = 1`, stores
the configuration and zero-valued counters.  The divisions are Python
float divisions, so a zero `mean_delay` raises. -/
def Sender.init (mean_delay failure_rate : ℚ) (messages : List Message) :
    Except String SenderState := do
  let std_deviation : ℚ := 1
  let shape ← pyDiv (mean_delay ^ 2) std_deviation
  let scale ← pyDiv std_deviation mean_delay
  Except.ok
    { shape := shape, scale := scale, failure_rate := failure_rate,
      messages := messages, num_messages_sent := 0, num_messages_failed := 0,
      elapsed_time := 0, elapsed_time_denominator := 0, is_sending := false }

/-- `Sender.send` after the simulated delay: draws `u` (the value of
`random.random()`, supplied as input); if `u < failure_rate` increments
the failed counter and reports `False`, otherwise increments the sent
counter and reports `True`.  The gamma-distributed sleep does not change
any state and is absorbed into the caller-measured elapsed time. -/
def Sender.send (s : SenderState) (u : ℚ) : Bool × SenderState :=
  if u < s.failure_rate then
    (false, { s with num_messages_failed := s.num_messages_failed + 1 })
  else
    (true, { s with num_messages_sent := s.num_messages_sent + 1 })

/-- One iteration of the `while` body of `Sender.send_all`: attempt the
last pending message with uniform sample `u` and measured elapsed time
`e`; only when the attempt succeeded, accumulate the elapsed time,
increment its denominator and drop the message from the pending list
(the removal sits inside `if sent:` in the source). -/
def Sender.step (s : SenderState) (u e : ℚ) : SenderState :=
  let r := Sender.send s u
  if r.1 then
    { r.2 with
      elapsed_time := r.2.elapsed_time + e,
      elapsed_time_denominator := r.2.elapsed_time_denominator + 1,
      messages := r.2.messages.dropLast }
  else r.2

/-- The `while len(self.__messages) > 0` loop of `Sender.send_all`.  Each
list entry of `samples` feeds one loop iteration (uniform sample, elapsed
time); `k` counts the attempts already made.  Returns `none` when the
sample stream is exhausted before the pending list empties, otherwise
the final state (with `is_sending` cleared) and the attempt count. -/
def Sender.sendAllLoop (s : SenderState) (samples : List (ℚ × ℚ)) (k : ℕ) :
    Option (SenderState × ℕ) :=
  if s.messages.isEmpty then some ({ s with is_sending := false }, k)
  else
    match samples with
    | [] => none
    | (u, e) :: rest => Sender.sendAllLoop (Sender.step s u e) rest (k + 1)

/-- `Sender.send_all`: sets `is_sending = True`, runs the drain loop, and
(inside the loop's exit) sets `is_sending = False`. -/
def Sender.sendAll (s : SenderState) (samples : List (ℚ × ℚ)) :
    Option (SenderState × ℕ) :=
  Sender.sendAllLoop { s with is_sending := true } samples 0

/-- The state after running a fixed number of iterations of the
`send_all` loop body, one per sample, without the emptiness test (used to
talk about non-terminating executions). -/
def Sender.sendSteps (s : SenderState) (samples : List (ℚ × ℚ)) : SenderState :=
  samples.foldl (fun st p => Sender.step st p.1 p.2) s

/-- `Sender.get_and_reset_stats`: returns the tuple
`(failed, elapsed_time, elapsed_time_denominator, sent)` and zeroes the
four counters, exactly in the source's tuple order. -/
def Sender.get_and_reset_stats (s : SenderState) :
    (ℕ × ℚ × ℕ × ℕ) × SenderState :=
  ((s.num_messages_failed, s.elapsed_time, s.elapsed_time_denominator,
    s.num_messages_sent),
   { s with num_messages_failed := 0, elapsed_time := 0,
            elapsed_time_denominator := 0, num_messages_sent := 0 })

/-- The Monitor-owned running totals. -/
structure MonitorState where
  num_messages_sent : ℕ
  num_messages_failed : ℕ
  total_elapsed_time : ℚ
  elapsed_time_denominator : ℕ
deriving DecidableEq

/-- The `for sender in self.__tracked_senders` harvest of one Monitor
pass: calls `get_and_reset_stats` on each sender in order and adds the
four harvested values into the running totals.  Returns the new totals
and the senders with their counters reset. -/
def Monitor.harvestAll : MonitorState → List SenderState →
    MonitorState × List SenderState
  | m, [] => (m, [])
  | m, s :: rest =>
    let r := Sender.get_and_reset_stats s
    let m1 : MonitorState :=
      { num_messages_sent := m.num_messages_sent + r.1.2.2.2,
        num_messages_failed := m.num_messages_failed + r.1.1,
        total_elapsed_time := m.total_elapsed_time + r.1.2.1,
        elapsed_time_denominator := m.elapsed_time_denominator + r.1.2.2.1 }
    let t := Monitor.harvestAll m1 rest
    (t.1, r.2 :: t.2)

/-- The three values one Monitor pass writes to the curses window. -/
structure Snapshot where
  sent : ℕ
  failed : ℕ
  average_delay : ℚ
deriving DecidableEq

/-- One body iteration of `Monitor.monitor`: harvest every tracked
sender, then render the running totals; the displayed average delay is
`total / denominator` guarded by `denominator != 0`, else `0`. -/
def Monitor.pass (m : MonitorState) (senders : List SenderState) :
    Snapshot × MonitorState × List SenderState :=
  let t := Monitor.harvestAll m senders
  ({ sent := t.1.num_messages_sent,
     failed := t.1.num_messages_failed,
     average_delay :=
       if t.1.elapsed_time_denominator ≠ 0 then
         t.1.total_elapsed_time / (t.1.elapsed_time_denominator : ℚ)
       else 0 },
   t.1, t.2)

/-- The control skeleton of the `Monitor.monitor` loop.  `obs` is the
stream of values of `any(sender.is_sending ...)` observed at successive
top-of-loop checks, `last_pass` the loop variable of the same name.  The
result is the list of entry observations of the passes actually
performed (each performed pass harvests every sender); `none` means the
observation stream ran out while the loop was still running. -/
def Monitor.loop : List Bool → Bool → Option (List Bool)
  | [], _ => none
  | o :: rest, last_pass =>
    if o || !last_pass then
      Option.map (fun l => o :: l) (Monitor.loop rest (!o))
    else some []

/-- Modelled from the spec: the Monitor loop of section 4.3, in which
every check performs a pass (steps a to c, harvest included) and the
termination test of step d runs after the pass, so the pass taken when
the entry observation is inactive and the previous pass also found no
active workers still harvests before terminating.  Used only to compare
against the implemented `Monitor.loop`. -/
def Monitor.specLoop : List Bool → Bool → Option (List Bool)
  | [], _ => none
  | o :: rest, last_pass =>
    if !o && last_pass then some [o]
    else Option.map (fun l => o :: l) (Monitor.specLoop rest (!o))

/-- The section sizes produced by `np.array_split(seq, s)` on a sequence
of length `n`: the first `n % s` sections get `n / s + 1` elements, the
remaining ones `n / s`. -/
def sectionSizes (n s : ℕ) : List ℕ :=
  (List.range s).map (fun i => n / s + if i < n % s then 1 else 0)

/-- Cuts a list into consecutive chunks of the given sizes. -/
def splitBySizes {α : Type} : List ℕ → List α → List (List α)
  | [], _ => []
  | k :: ks, l => l.take k :: splitBySizes ks (l.drop k)

/-- `np.array_split(l, s)`: raises
`ValueError("number sections must be larger than 0.")` when `s ≤ 0`,
otherwise returns the as-even-as-possible contiguous split. -/
def array_split {α : Type} (l : List α) (s : ℤ) :
    Except String (List (List α)) :=
  if s ≤ 0 then Except.error "number sections must be larger than 0."
  else Except.ok (splitBySizes (sectionSizes l.length s.toNat) l)

/-- Combined state of one Worker together with the totals already
harvested from it, for stating the accounting invariant across the drain
loop and `get_and_reset_stats`. -/
structure SysState where
  w : SenderState
  harvested_failed : ℕ
  harvested_elapsed : ℚ
  harvested_denominator : ℕ
  harvested_sent : ℕ
deriving DecidableEq

/-- The two operations that touch a Worker's state: one drain-loop
iteration (guarded, as in the source, by pending being non-empty) and
one harvest. -/
inductive SysAction where
  | attempt (u e : ℚ)
  | harvest
deriving DecidableEq

/-- Applies one operation to the combined state; `harvest` adds the four
returned values into the harvested totals. -/
def SysState.apply (st : SysState) : SysAction → SysState
  | SysAction.attempt u e =>
    if st.w.messages.isEmpty then st else { st with w := Sender.step st.w u e }
  | SysAction.harvest =>
    let r := Sender.get_and_reset_stats st.w
    { st with
      w := r.2,
      harvested_failed := st.harvested_failed + r.1.1,
      harvested_elapsed := st.harvested_elapsed + r.1.2.1,
      harvested_denominator := st.harvested_denominator + r.1.2.2.1,
      harvested_sent := st.harvested_sent + r.1.2.2.2 }

/-- Runs a sequence of operations. -/
def SysState.run (st : SysState) (acts : List SysAction) : SysState :=
  acts.foldl SysState.apply st

/-- The accounting invariant that does hold of the code: successes since
the last reset, plus successes already harvested, plus the messages still
pending, account for every message originally assigned. -/
def SysInv (assigned : ℕ) (st : SysState) : Prop :=
  st.w.num_messages_sent + st.harvested_sent + st.w.messages.length = assigned

/-- The three locks of a `Sender` object. -/
inductive LockId where
  | failedL
  | sentL
  | elapsedL
deriving DecidableEq

/-- Python's `and` on two lock objects: `a and b` evaluates to `b`
whenever `a` is truthy, and a `threading.Lock` object is always truthy,
so the operator simply returns its second operand. -/
def pyAnd (_a b : LockId) : LockId := b

/-- The single context manager entered by
`with self.__messages_failed_lock and self.__messages_sent_lock and
self.__elapsed_time_lock:` in `get_and_reset_stats` — the value of the
chained `and`, not the three locks. -/
def harvestLockAcquired : LockId :=
  pyAnd (pyAnd LockId.failedL LockId.sentL) LockId.elapsedL

/-- Which thread holds a lock. -/
inductive Holder where
  | sender
  | monitor
deriving DecidableEq

/-- Shared state for the interleaving of one sender thread with one
monitor thread: the four counters, the three locks, the tuple read by
line one of `get_and_reset_stats` (`saved`), the tuple the harvest
returns (`harvested`), and a ghost count of failed-counter increments
actually performed by the sender. -/
structure CState where
  num_messages_failed : ℕ
  num_messages_sent : ℕ
  elapsed_time : ℚ
  elapsed_time_denominator : ℕ
  failed_lock : Option Holder
  sent_lock : Option Holder
  elapsed_lock : Option Holder
  saved : Option (ℕ × ℚ × ℕ × ℕ)
  harvested : Option (ℕ × ℚ × ℕ × ℕ)
  failed_increments : ℕ
deriving DecidableEq

/-- Reads one lock cell. -/
def CState.getLock (st : CState) : LockId → Option Holder
  | LockId.failedL => st.failed_lock
  | LockId.sentL => st.sent_lock
  | LockId.elapsedL => st.elapsed_lock

/-- Writes one lock cell. -/
def CState.setLock (st : CState) (l : LockId) (h : Option Holder) : CState :=
  match l with
  | LockId.failedL => { st with failed_lock := h }
  | LockId.sentL => { st with sent_lock := h }
  | LockId.elapsedL => { st with elapsed_lock := h }

/-- Atomic micro-operations of the two threads.  The sender's three
operations are the failure branch of `send` (`with
self.__messages_failed_lock: self.__num_messages_failed += 1`).  The
monitor's four operations are `get_and_reset_stats`: entering the `with`
(which acquires only `harvestLockAcquired`), the tuple read, the tuple
zeroing, and the exit that releases the lock and returns the read tuple.
`monitorAcquireAllThree` is the acquisition the claim describes — a
critical section excluding all counter updates — kept for contrast. -/
inductive CAct where
  | senderAcquireFailed
  | senderIncFailed
  | senderReleaseFailed
  | monitorAcquire
  | monitorRead
  | monitorZero
  | monitorRelease
  | monitorAcquireAllThree
deriving DecidableEq

/-- One atomic micro-step; `none` means the operation is blocked (a
needed lock is held by the other thread) or meaningless in the current
control state. -/
def cstep (st : CState) : CAct → Option CState
  | CAct.senderAcquireFailed =>
    if st.failed_lock = none then
      some { st with failed_lock := some Holder.sender }
    else none
  | CAct.senderIncFailed =>
    if st.failed_lock = some Holder.sender then
      some { st with
        num_messages_failed := st.num_messages_failed + 1,
        failed_increments := st.failed_increments + 1 }
    else none
  | CAct.senderReleaseFailed =>
    if st.failed_lock = some Holder.sender then
      some { st with failed_lock := none }
    else none
  | CAct.monitorAcquire =>
    if st.getLock harvestLockAcquired = none then
      some (st.setLock harvestLockAcquired (some Holder.monitor))
    else none
  | CAct.monitorRead =>
    if st.getLock harvestLockAcquired = some Holder.monitor then
      some { st with
        saved := some (st.num_messages_failed, st.elapsed_time,
          st.elapsed_time_denominator, st.num_messages_sent) }
    else none
  | CAct.monitorZero =>
    if st.getLock harvestLockAcquired = some Holder.monitor then
      some { st with
        num_messages_failed := 0, elapsed_time := 0,
        elapsed_time_denominator := 0, num_messages_sent := 0 }
    else none
  | CAct.monitorRelease =>
    if st.getLock harvestLockAcquired = some Holder.monitor then
      some { (st.setLock harvestLockAcquired none) with harvested := st.saved }
    else none
  | CAct.monitorAcquireAllThree =>
    if st.failed_lock = none ∧ st.sent_lock = none ∧ st.elapsed_lock = none then
      some { st with
        failed_lock := some Holder.monitor,
        sent_lock := some Holder.monitor,
        elapsed_lock := some Holder.monitor }
    else none

/-- Runs an interleaving of micro-steps; `none` when any step blocks. -/
def crun (st : CState) (acts : List CAct) : Option CState :=
  acts.foldlM cstep st

/-- All counters zero, all locks free. -/
def cInit : CState :=
  { num_messages_failed := 0, num_messages_sent := 0, elapsed_time := 0,
    elapsed_time_denominator := 0, failed_lock := none, sent_lock := none,
    elapsed_lock := none, saved := none, harvested := none,
    failed_increments := 0 }

/-- The interleaving that loses an increment: the harvest reads the
counters, then the sender's failure branch runs to completion under the
failed-counter lock (which the harvest does not hold), then the harvest
zeroes the counters. -/
def raceTrace : List CAct :=
  [CAct.monitorAcquire, CAct.monitorRead, CAct.senderAcquireFailed,
   CAct.senderIncFailed, CAct.senderReleaseFailed, CAct.monitorZero,
   CAct.monitorRelease]

/-- The same interleaving attempted against a harvest that takes all
three locks: the sender's lock acquisition blocks. -/
def blockedTrace : List CAct :=
  [CAct.monitorAcquireAllThree, CAct.monitorRead, CAct.senderAcquireFailed]

/-- A concrete generated message. -/
def exMessage : Message := { message := "hello", recipient := "5551234567" }

/-- A second concrete generated message. -/
def exMessage2 : Message := { message := "ok", recipient := "5550000000" }

/-- A concrete Worker as built by `Sender(2.0, 0.5, [exMessage])`:
shape `4`, scale `1/2`. -/
def c1State : SenderState :=
  { shape := 4, scale := mkRat 1 2, failure_rate := mkRat 1 2, messages := [exMessage],
    num_messages_sent := 0, num_messages_failed := 0, elapsed_time := 0,
    elapsed_time_denominator := 0, is_sending := false }

/-- A concrete Worker as built by `Sender(2.0, 1.0, [exMessage])`:
failure rate one. -/
def c4State : SenderState :=
  { shape := 4, scale := mkRat 1 2, failure_rate := 1, messages := [exMessage],
    num_messages_sent := 0, num_messages_failed := 0, elapsed_time := 0,
    elapsed_time_denominator := 0, is_sending := false }

/-- A concrete combined state: a Worker with failure rate `1/2` holding
two pending messages, nothing harvested yet. -/
def c5State : SysState :=
  { w := { shape := 4, scale := mkRat 1 2, failure_rate := mkRat 1 2,
           messages := [exMessage, exMessage2], num_messages_sent := 0,
           num_messages_failed := 0, elapsed_time := 0,
           elapsed_time_denominator := 0, is_sending := true },
    harvested_failed := 0, harvested_elapsed := 0,
    harvested_denominator := 0, harvested_sent := 0 }

/-- A concrete Worker whose assigned sub-sequence is empty. -/
def c10State : SenderState :=
  { shape := 4, scale := mkRat 1 2, failure_rate := mkRat 1 2, messages := [],
    num_messages_sent := 0, num_messages_failed := 0, elapsed_time := 0,
    elapsed_time_denominator := 0, is_sending := false }

/-- Three concrete generated messages for exercising the partitioner. -/
def exMessages3 : List Message :=
  [exMessage, exMessage2, { message := "hi", recipient := "5559999999" }]

/-! ### Helper lemmas -/

/-- Failure branch of one loop iteration when the failure rate is `1` and
the uniform sample is a genuine `random.random()` value (below `1`): only
the failed counter moves. -/
theorem step_rate_one (s : SenderState) (u e : ℚ) (h1 : s.failure_rate = 1)
    (hu : u < 1) :
    Sender.step s u e
      = { s with num_messages_failed := s.num_messages_failed + 1 } := by
  simp [Sender.step, Sender.send, h1, hu]

/-- With failure rate `1` and a non-empty pending list, the drain loop
consumes every sample without ever emptying the list. -/
theorem sendAllLoop_rate_one (samples : List (ℚ × ℚ)) :
    ∀ (s : SenderState) (k : ℕ), s.failure_rate = 1 → s.messages ≠ [] →
      (∀ p ∈ samples, 0 ≤ p.1 ∧ p.1 < 1) →
      Sender.sendAllLoop s samples k = none := by
  induction samples with
  | nil =>
    intro s k _ hne _
    rw [Sender.sendAllLoop]
    simp [hne]
  | cons p rest ih =>
    intro s k h1 hne hv
    obtain ⟨u, e⟩ := p
    rw [Sender.sendAllLoop]
    have hu : u < 1 := (hv (u, e) (List.mem_cons_self _ _)).2
    rw [step_rate_one s u e h1 hu]
    simp only [List.isEmpty_iff, hne, if_neg]
    exact ih _ _ h1 hne (fun q hq => hv q (List.mem_cons_of_mem _ hq))

/-- With failure rate `1`, running any number of loop iterations moves
only the failed counter, by exactly the number of attempts. -/
theorem sendSteps_rate_one (samples : List (ℚ × ℚ)) :
    ∀ s : SenderState, s.failure_rate = 1 →
      (∀ p ∈ samples, 0 ≤ p.1 ∧ p.1 < 1) →
      (Sender.sendSteps s samples).num_messages_sent = s.num_messages_sent ∧
      (Sender.sendSteps s samples).num_messages_failed
        = s.num_messages_failed + samples.length ∧
      (Sender.sendSteps s samples).messages = s.messages := by
  induction samples with
  | nil => intro s _ _; simp [Sender.sendSteps]
  | cons p rest ih =>
    intro s h1 hv
    obtain ⟨u, e⟩ := p
    have hu : u < 1 := (hv (u, e) (List.mem_cons_self _ _)).2
    have hstep := step_rate_one s u e h1 hu
    have ihs := ih (Sender.step s u e)
      (by rw [hstep]; simpa using h1)
      (fun q hq => hv q (List.mem_cons_of_mem _ hq))
    rw [Sender.sendSteps] at ihs ⊢
    simp only [List.foldl_cons]
    refine ⟨?_, ?_, ?_⟩
    · rw [ihs.1, hstep]
    · rw [ihs.2.1, hstep]
      simp [List.length_cons]
      omega
    · rw [ihs.2.2, hstep]

/-- The success-accounting invariant is preserved by every operation. -/
theorem sysInv_apply (n : ℕ) (st : SysState) (a : SysAction)
    (h : SysInv n st) : SysInv n (st.apply a) := by
  cases a with
  | attempt u e =>
    by_cases hemp : st.w.messages.isEmpty
    · simpa [SysState.apply, hemp] using h
    · have hne : st.w.messages ≠ [] := by simpa [List.isEmpty_iff] using hemp
      have hlen : st.w.messages.length ≠ 0 := by
        simpa [List.length_eq_zero] using hne
      rw [SysInv] at h ⊢
      simp only [SysState.apply, hemp, if_neg, Bool.false_eq_true,
        not_false_iff]
      by_cases hu : u < st.w.failure_rate
      · simp [Sender.step, Sender.send, hu]
        omega
      · simp [Sender.step, Sender.send, hu, List.length_dropLast]
        omega
  | harvest =>
    rw [SysInv] at h ⊢
    simp [SysState.apply, Sender.get_and_reset_stats]
    omega

/-- The success-accounting invariant is preserved by any operation
sequence. -/
theorem sysInv_run (acts : List SysAction) :
    ∀ st : SysState, ∀ n : ℕ, SysInv n st → SysInv n (st.run acts) := by
  induction acts with
  | nil => intro st n h; simpa [SysState.run] using h
  | cons a rest ih =>
    intro st n h
    rw [SysState.run, List.foldl_cons]
    exact ih _ _ (sysInv_apply n st a h)

/-- Every terminating run of the monitor loop ends as follows: if no
pass at all was performed, the loop variable already recorded an
inactive previous pass; and otherwise the last performed pass entered
with an inactive observation. -/
theorem monitorLoop_shape (obs : List Bool) :
    ∀ (lp : Bool) (l : List Bool), Monitor.loop obs lp = some l →
      (l = [] → lp = true) ∧ (l ≠ [] → l.getLast? = some false) := by
  induction obs with
  | nil => intro lp l h; simp [Monitor.loop] at h
  | cons o rest ih =>
    intro lp l h
    rw [Monitor.loop] at h
    by_cases hc : (o || !lp) = true
    · rw [if_pos hc] at h
      obtain ⟨l', hl', rfl⟩ := Option.map_eq_some'.mp h
      refine ⟨by simp, fun _ => ?_⟩
      rcases l' with _ | ⟨x, xs⟩
      · have ho : (!o) = true := (ih (!o) [] hl').1 rfl
        have ho2 : o = false := by simpa using ho
        simp [ho2]
      · have h2 := (ih (!o) (x :: xs) hl').2 (by simp)
        simpa [List.getLast?_cons_cons] using h2
    · rw [if_neg hc] at h
      have hl : l = [] := by
        have := h
        simp only [Option.some.injEq] at this
        exact this.symm
      have hcc : o = false ∧ lp = true := by simpa using hc
      exact ⟨fun _ => hcc.2, fun hne => absurd hl hne⟩

/-- Sum of `m` terms `c + [i < r]` over `i < m`. -/
theorem sum_range_const_add_ite (c r : ℕ) : ∀ m : ℕ,
    ((List.range m).map (fun i => c + if i < r then 1 else 0)).sum
      = m * c + min m r := by
  intro m
  induction m with
  | zero => simp
  | succ m ih =>
    rw [List.range_succ, List.map_append, List.sum_append, ih, Nat.succ_mul]
    by_cases h : m < r <;> simp [h] <;> omega

/-- The section sizes of `np.array_split` always sum to the input
length. -/
theorem sectionSizes_sum (n s : ℕ) (hs : 0 < s) : (sectionSizes n s).sum = n := by
  rw [sectionSizes, sum_range_const_add_ite]
  have h1 : n % s < s := Nat.mod_lt _ hs
  have hmin : min s (n % s) = n % s := by omega
  rw [hmin]
  exact Nat.div_add_mod n s

/-- There are as many section sizes as requested sections. -/
theorem sectionSizes_length (n s : ℕ) : (sectionSizes n s).length = s := by
  simp [sectionSizes]

/-- Every section size is the floor quotient or one more. -/
theorem sectionSizes_bounds {n s x : ℕ} (hx : x ∈ sectionSizes n s) :
    n / s ≤ x ∧ x ≤ n / s + 1 := by
  rw [sectionSizes] at hx
  obtain ⟨i, _, rfl⟩ := List.mem_map.mp hx
  by_cases h : i < n % s <;> simp [h]

/-- When the pending count is below the section count, some section is
empty. -/
theorem sectionSizes_has_zero (n s : ℕ) (h : n < s) : 0 ∈ sectionSizes n s := by
  rw [sectionSizes]
  refine List.mem_map.mpr ⟨n % s, List.mem_range.mpr (Nat.mod_lt _ (by omega)), ?_⟩
  have : n / s = 0 := Nat.div_eq_of_lt h
  simp [this]

/-- Splitting produces one chunk per requested size. -/
theorem splitBySizes_length {α : Type} (ks : List ℕ) :
    ∀ l : List α, (splitBySizes ks l).length = ks.length := by
  induction ks with
  | nil => intro l; simp [splitBySizes]
  | cons k ks ih => intro l; simp [splitBySizes, ih]

/-- When the sizes cover the whole list, concatenating the chunks gives
back the list. -/
theorem splitBySizes_flatten {α : Type} (ks : List ℕ) :
    ∀ l : List α, l.length ≤ ks.sum → (splitBySizes ks l).flatten = l := by
  induction ks with
  | nil =>
    intro l h
    simp only [List.sum_nil, Nat.le_zero] at h
    simp [splitBySizes, List.length_eq_zero.mp h]
  | cons k ks ih =>
    intro l h
    simp only [List.sum_cons] at h
    rw [splitBySizes, List.flatten_cons,
      ih (l.drop k) (by rw [List.length_drop]; omega)]
    exact List.take_append_drop k l

/-- When the list is long enough, each chunk has exactly its requested
size. -/
theorem splitBySizes_map_length {α : Type} (ks : List ℕ) :
    ∀ l : List α, ks.sum ≤ l.length →
      (splitBySizes ks l).map List.length = ks := by
  induction ks with
  | nil => intro l _; simp [splitBySizes]
  | cons k ks ih =>
    intro l h
    simp only [List.sum_cons] at h
    rw [splitBySizes, List.map_cons,
      ih (l.drop k) (by rw [List.length_drop]; omega)]
    congr 1
    rw [List.length_take]
    omega

/-- The totals after harvesting a list of senders are the old totals
plus the per-sender sums, field by field. -/
theorem harvestAll_fst (xs : List SenderState) : ∀ m : MonitorState,
    (Monitor.harvestAll m xs).1 =
      { num_messages_sent := m.num_messages_sent
          + (xs.map (fun s => s.num_messages_sent)).sum,
        num_messages_failed := m.num_messages_failed
          + (xs.map (fun s => s.num_messages_failed)).sum,
        total_elapsed_time := m.total_elapsed_time
          + (xs.map (fun s => s.elapsed_time)).sum,
        elapsed_time_denominator := m.elapsed_time_denominator
          + (xs.map (fun s => s.elapsed_time_denominator)).sum } := by
  induction xs with
  | nil => intro m; cases m; simp [Monitor.harvestAll]
  | cons s rest ih =>
    intro m
    cases m
    simp [Monitor.harvestAll, Sender.get_and_reset_stats, ih, add_assoc]

/-! ### Claim theorems -/

/-- Claim C1, counterexample: a Worker built by `Sender(2.0, 0.5, [m])`
that draws the failing sample `0` keeps `m` in the pending list (the
claim demands it be removed), and draining with a failing then a
succeeding sample makes two attempts on the single assigned message,
ending with one failure and one success recorded. -/
theorem failed_attempt_leaves_pending :
    Sender.init 2 (mkRat 1 2) [exMessage] = Except.ok c1State ∧
    (Sender.step c1State 0 0).messages = [exMessage] ∧
    (Sender.step c1State 0 0).num_messages_failed = 1 ∧
    ([exMessage] : List Message).dropLast = [] ∧
    (Sender.sendAll c1State [(0, 0), (1, 0)]).map
      (fun r => (r.1.num_messages_sent, r.1.num_messages_failed,
                 r.1.messages, r.2)) = some (1, 1, [], 2) := by
  refine ⟨?_, by decide, by decide, by decide, ?_⟩
  · norm_num [Sender.init, pyDiv, c1State, Rat.mkRat_eq_div]
    rfl
  · norm_num [Sender.sendAll, Sender.sendAllLoop, Sender.step, Sender.send,
      c1State, exMessage, Rat.mkRat_eq_div]

/-- Claim C1, amended: in the Worker's drain loop, an attempted message
is removed from the pending sub-sequence exactly when the attempt
succeeded; after a failed attempt the pending list is unchanged, so the
failed message is attempted again on the next iteration. -/
theorem pending_removed_only_on_success (s : SenderState) (u e : ℚ) :
    (Sender.step s u e).messages =
      if u < s.failure_rate then s.messages else s.messages.dropLast := by
  by_cases h : u < s.failure_rate <;> simp [Sender.step, Sender.send, h]

/-- Claim C2: constructing a Worker with `meanDelay = 0` does not yield
a degenerate zero delay — `Sender.__init__` computes
`scale = 1 / mean_delay` with no special case, so construction raises
`ZeroDivisionError` for every failure rate and message list. -/
theorem zero_mean_delay_raises_division_error (fr : ℚ) (msgs : List Message) :
    Sender.init 0 fr msgs
      = Except.error "ZeroDivisionError: float division by zero" := by
  norm_num [Sender.init, pyDiv]
  rfl

/-- Claim C3: the `with A and B and C` statement of
`get_and_reset_stats` acquires only the elapsed-time lock, so the
harvest is not mutually exclusive with the sent/failed increments of the
send loop: in the exhibited interleaving the sender performs one failed
increment under its own lock between the harvest's read and its zeroing,
and the increment is visible neither in the harvested tuple nor in the
residual counter — it is lost.  Had the harvest held all three locks,
the same interleaving would block. -/
theorem harvest_race_loses_failed_increment :
    harvestLockAcquired = LockId.elapsedL ∧
    (crun cInit raceTrace).map
      (fun st => (st.harvested, st.num_messages_failed, st.failed_increments))
      = some (some (0, 0, 0, 0), 0, 1) ∧
    crun cInit blockedTrace = none := by
  refine ⟨rfl, by decide, by decide⟩

/-- Claim C4, counterexample: for the Worker `Sender(2.0, 1.0, [m])`
(failure rate `1`, `K = 1`), `send_all` never completes: no genuine
`random.random()` sample stream makes the drain loop return, because a
failed attempt never removes its message. -/
theorem rate_one_sendAll_never_returns :
    ¬ ∃ (samples : List (ℚ × ℚ)) (r : SenderState × ℕ),
        (∀ p ∈ samples, 0 ≤ p.1 ∧ p.1 < 1) ∧
        Sender.sendAll c4State samples = some r := by
  rintro ⟨samples, r, hv, hrun⟩
  rw [Sender.sendAll,
    sendAllLoop_rate_one samples _ 0 (by decide) (by decide) hv] at hrun
  exact Option.noConfusion hrun

/-- Claim C4, amended: for a Worker with `failureRate = 1` and a
non-empty assignment, `send_all` does not complete on any genuine sample
stream; every attempt fails, so after any number of loop iterations the
sent counter and the pending list are unchanged and the failed counter
has grown by exactly the number of attempts. -/
theorem rate_one_drain_diverges (s : SenderState) (samples : List (ℚ × ℚ))
    (h1 : s.failure_rate = 1) (hne : s.messages ≠ [])
    (hv : ∀ p ∈ samples, 0 ≤ p.1 ∧ p.1 < 1) :
    Sender.sendAll s samples = none ∧
    (Sender.sendSteps s samples).num_messages_sent = s.num_messages_sent ∧
    (Sender.sendSteps s samples).num_messages_failed
      = s.num_messages_failed + samples.length ∧
    (Sender.sendSteps s samples).messages = s.messages := by
  refine ⟨?_, sendSteps_rate_one samples s h1 hv⟩
  rw [Sender.sendAll]
  exact sendAllLoop_rate_one samples _ 0 (by simpa using h1)
    (by simpa using hne) hv

/-- Claim C4, witness for the amended statement at `Sender(2.0, 1.0,
[m])` and the single-sample stream `[(1/2, 0)]`. -/
theorem rate_one_drain_diverges_witness :
    c4State.failure_rate = 1 ∧ c4State.messages ≠ [] ∧
    (∀ p ∈ ([(mkRat 1 2, 0)] : List (ℚ × ℚ)), 0 ≤ p.1 ∧ p.1 < 1) ∧
    (Sender.sendAll c4State [(mkRat 1 2, 0)] = none ∧
     (Sender.sendSteps c4State [(mkRat 1 2, 0)]).num_messages_sent
       = c4State.num_messages_sent ∧
     (Sender.sendSteps c4State [(mkRat 1 2, 0)]).num_messages_failed
       = c4State.num_messages_failed
         + ([(mkRat 1 2, 0)] : List (ℚ × ℚ)).length ∧
     (Sender.sendSteps c4State [(mkRat 1 2, 0)]).messages
       = c4State.messages) :=
  ⟨by decide, by decide, by decide,
   rate_one_drain_diverges c4State [(mkRat 1 2, 0)]
     (by decide) (by decide) (by decide)⟩

/-- Claim C5, counterexample: starting from a Worker with two assigned
messages and failure rate `1/2`, one failed attempt leaves
`sent + failed + |pending| + harvested` at `3`, exceeding the `2`
messages originally assigned — the claimed equation counts the failed
attempt although its message is still pending. -/
theorem attempt_breaks_claimed_sum :
    c5State.w.messages.length = 2 ∧
    (c5State.run [SysAction.attempt 0 0]).w.num_messages_sent
      + (c5State.run [SysAction.attempt 0 0]).w.num_messages_failed
      + (c5State.run [SysAction.attempt 0 0]).w.messages.length
      + (c5State.run [SysAction.attempt 0 0]).harvested_sent
      + (c5State.run [SysAction.attempt 0 0]).harvested_failed = 3 ∧
    (3 : ℕ) ≠ 2 := by
  refine ⟨by decide, by decide, by decide⟩

/-- Claim C5, amended: the conserved accounting is over successes only —
at every point of any interleaving of drain-loop iterations and
harvests, the Worker's current sent counter, plus the sent counts
already harvested, plus the pending count, equals the number of
messages originally assigned.  The failed counter counts attempts, not
distinct messages, so it does not take part in the equation. -/
theorem sent_accounting_invariant (n : ℕ) (st : SysState)
    (acts : List SysAction) (h : SysInv n st) : SysInv n (st.run acts) :=
  sysInv_run acts st n h

/-- Claim C5, witness for the amended invariant on a concrete run with a
failed attempt, a harvest, and a successful attempt. -/
theorem sent_accounting_invariant_witness :
    SysInv 2 c5State ∧ SysInv 2 (c5State.run
      [SysAction.attempt 0 0, SysAction.harvest, SysAction.attempt 1 0]) :=
  ⟨by unfold SysInv; decide,
   sent_accounting_invariant 2 c5State
     [SysAction.attempt 0 0, SysAction.harvest, SysAction.attempt 1 0]
     (by unfold SysInv; decide)⟩

/-- Claim C6, counterexample: on the observation stream
`active, inactive, inactive` the implemented loop performs only the two
passes `[true, false]` and terminates at the third check without a
further harvest, whereas the claimed rule (terminate after the harvest
of a pass whose entry and predecessor both observed inactivity) performs
the three passes `[true, false, false]`. -/
theorem monitor_terminates_without_final_harvest :
    Monitor.loop [true, false, false] false = some [true, false] ∧
    Monitor.specLoop [true, false, false] false = some [true, false, false] ∧
    ([true, false] : List Bool) ≠ [true, false, false] := by
  refine ⟨by decide, by decide, by decide⟩

/-- Claim C6, amended: the Monitor terminates at a top-of-loop check,
without performing that check's pass, exactly when the check observes no
active workers and the previous pass also found none; every terminating
run nevertheless contains at least one performed pass, and its final
performed pass entered with no active workers observed — so at least one
harvest pass happens after the workers are seen inactive, but none
happens at the terminating check itself. -/
theorem monitor_one_trailing_inactive_pass :
    (∀ (obs : List Bool) (l : List Bool),
        Monitor.loop obs false = some l →
          l ≠ [] ∧ l.getLast? = some false) ∧
    (∀ rest : List Bool, Monitor.loop (false :: rest) true = some []) := by
  constructor
  · intro obs l h
    have hs := monitorLoop_shape obs false l h
    have hne : l ≠ [] := by
      intro hl
      have hfalse := hs.1 hl
      simp at hfalse
    exact ⟨hne, hs.2 hne⟩
  · intro rest
    simp [Monitor.loop]

/-- Claim C6, witness for the amended statement on the stream
`active, inactive, inactive`. -/
theorem monitor_one_trailing_inactive_pass_witness :
    Monitor.loop [true, false, false] false = some [true, false] ∧
    (([true, false] : List Bool) ≠ [] ∧
     ([true, false] : List Bool).getLast? = some false) :=
  ⟨by decide,
   monitor_one_trailing_inactive_pass.1 [true, false, false] [true, false]
     (by decide)⟩

/-- Claim C7: for every message list and every requested section count
`s ≥ 1`, `np.array_split` succeeds and returns exactly `s` sub-sequences
whose lengths sum to the input length, whose concatenation in order is
exactly the input (no message duplicated or dropped), and whose sizes
pairwise differ by at most one. -/
theorem array_split_partitions (l : List Message) (s : ℤ) (hs : 1 ≤ s) :
    ∃ parts : List (List Message),
      array_split l s = Except.ok parts ∧
      parts.length = s.toNat ∧
      (parts.map List.length).sum = l.length ∧
      parts.flatten = l ∧
      ∀ p ∈ parts, ∀ q ∈ parts, p.length ≤ q.length + 1 := by
  have hpos : 0 < s.toNat := by omega
  have hsum : (sectionSizes l.length s.toNat).sum = l.length :=
    sectionSizes_sum _ _ hpos
  refine ⟨splitBySizes (sectionSizes l.length s.toNat) l, ?_, ?_, ?_, ?_, ?_⟩
  · rw [array_split, if_neg (by omega)]
  · rw [splitBySizes_length, sectionSizes_length]
  · rw [splitBySizes_map_length _ l hsum.le, hsum]
  · exact splitBySizes_flatten _ l hsum.ge
  · intro p hp q hq
    have hp2 : p.length ∈ sectionSizes l.length s.toNat := by
      rw [← splitBySizes_map_length (sectionSizes l.length s.toNat) l hsum.le]
      exact List.mem_map_of_mem _ hp
    have hq2 : q.length ∈ sectionSizes l.length s.toNat := by
      rw [← splitBySizes_map_length (sectionSizes l.length s.toNat) l hsum.le]
      exact List.mem_map_of_mem _ hq
    have b1 := sectionSizes_bounds hp2
    have b2 := sectionSizes_bounds hq2
    omega

/-- Claim C7, witness: three concrete messages split into two sections. -/
theorem array_split_partitions_witness :
    (1 : ℤ) ≤ 2 ∧
    ∃ parts : List (List Message),
      array_split exMessages3 2 = Except.ok parts ∧
      parts.length = (2 : ℤ).toNat ∧
      (parts.map List.length).sum = exMessages3.length ∧
      parts.flatten = exMessages3 ∧
      ∀ p ∈ parts, ∀ q ∈ parts, p.length ≤ q.length + 1 :=
  ⟨by decide, array_split_partitions exMessages3 2 (by decide)⟩

/-- Claim C8: the average delay a Monitor pass reports equals the
aggregated elapsed-time total divided by the aggregated success count
when that count is non-zero, and is `0` (no failure) when it is zero;
and in the drain loop the elapsed accumulator and its denominator move
exactly on successful attempts, never on failed ones. -/
theorem average_delay_over_successes (m : MonitorState)
    (xs : List SenderState) (s : SenderState) (u e : ℚ) :
    ((Monitor.pass m xs).1.average_delay =
      if m.elapsed_time_denominator
          + (xs.map (fun t => t.elapsed_time_denominator)).sum ≠ 0 then
        (m.total_elapsed_time + (xs.map (fun t => t.elapsed_time)).sum)
          / ((m.elapsed_time_denominator
              + (xs.map (fun t => t.elapsed_time_denominator)).sum : ℕ) : ℚ)
      else 0) ∧
    ((Sender.step s u e).elapsed_time =
      if u < s.failure_rate then s.elapsed_time else s.elapsed_time + e) ∧
    ((Sender.step s u e).elapsed_time_denominator =
      if u < s.failure_rate then s.elapsed_time_denominator
      else s.elapsed_time_denominator + 1) := by
  refine ⟨?_, ?_, ?_⟩
  · rw [Monitor.pass]
    simp only [harvestAll_fst]
  · by_cases h : u < s.failure_rate <;> simp [Sender.step, Sender.send, h]
  · by_cases h : u < s.failure_rate <;> simp [Sender.step, Sender.send, h]

/-- Claim C9: `np.array_split` fails with the invalid-argument error
`"number sections must be larger than 0."` for every section count
`s ≤ 0`, returning no partition. -/
theorem array_split_rejects_nonpositive (l : List Message) (s : ℤ)
    (hs : s ≤ 0) :
    array_split l s
      = Except.error "number sections must be larger than 0." := by
  rw [array_split, if_pos hs]

/-- Claim C9, witness at the empty message list and `s = 0`. -/
theorem array_split_rejects_nonpositive_witness :
    (0 : ℤ) ≤ 0 ∧ array_split ([] : List Message) 0
      = Except.error "number sections must be larger than 0." :=
  ⟨by decide, array_split_rejects_nonpositive [] 0 (by decide)⟩

/-- Claim C10: a Worker whose assigned sub-sequence is empty returns
from `send_all` after zero attempts, having set and then cleared the
liveness flag, with all four counters untouched (so still zero on a
fresh Worker) and `active = false`; and whenever fewer messages than
sections are assigned, the partitioner indeed produces an empty
section. -/
theorem sendAll_empty_assignment (s : SenderState) (samples : List (ℚ × ℚ))
    (h : s.messages = []) :
    Sender.sendAll s samples = some ({ s with is_sending := false }, 0) ∧
    ∀ n m : ℕ, n < m → 0 ∈ sectionSizes n m := by
  constructor
  · rw [Sender.sendAll, Sender.sendAllLoop.eq_def]
    simp [h]
  · intro n m hnm
    exact sectionSizes_has_zero n m hnm

/-- Claim C10, witness on a concrete fresh Worker with no messages. -/
theorem sendAll_empty_assignment_witness :
    c10State.messages = [] ∧
    (Sender.sendAll c10State [(0, 0)]
        = some ({ c10State with is_sending := false }, 0) ∧
     ∀ n m : ℕ, n < m → 0 ∈ sectionSizes n m) :=
  ⟨rfl, sendAll_empty_assignment c10State [(0, 0)] rfl⟩
